import Mathlib

/-!
# Verification of the streaming movie-alignment reconciliation engine

Shallow embedding of `pyworkflow/em/protocol/protocol_align_movies.py`
(class `ProtAlignMovies`): the `_loadOutputSet` / `_checkNewOutput`
reconciliation pass, together with the small collaborators it uses
(done-list persistence, output-set lifecycle, the downstream join step).

Pure data is modelled with Lean structures; the stateful pass becomes an
explicit state-transformer `checkNewOutput : ProtState → ProtState × List Event`
that also emits the ordered trace of externally visible actions of the pass
(done-log writes, transforms, appends, stream-state updates, relation
records, unblocking of the join step), mirroring the statement order of the
Python source.
-/

namespace AlignMovies

/-- Stream state flag of a set (`Set.STREAM_OPEN` / `Set.STREAM_CLOSED`). -/
inductive StreamState where
  | sOpen : StreamState
  | sClosed : StreamState
deriving DecidableEq, Repr

/-- Status of a protocol step; `waiting` is `STATUS_WAITING`, `statusNew` is
`cons.STATUS_NEW` (runnable), `other` stands for any remaining status. -/
inductive StepStatus where
  | waiting : StepStatus
  | statusNew : StepStatus
  | other : StepStatus
deriving DecidableEq, Repr

/-- Kind of provenance relation recorded for an output collection:
`_defineTransformRelation` or `_defineSourceRelation`. -/
inductive RelKind where
  | transformRel : RelKind
  | sourceRel : RelKind
deriving DecidableEq, Repr

/-- Movie alignment record (`MovieAlignment(first, last, xshifts, yshifts)`
plus the ROI set from the crop parameters). Shifts are exact rationals. -/
structure MovieAlignment where
  first : Int
  last : Int
  xshifts : List ℚ
  yshifts : List ℚ
  roi : List Int
deriving DecidableEq, Repr

/-- A work item of the input stream: a movie. `objId` is its stable unique
identifier, `micName` / `fileName` its names, `nFrames` its frame count, and
`done` the value of the external readiness predicate `_isMovieDone` for the
current pass. `alignment` is set by the transform. -/
structure Movie where
  objId : Nat
  micName : String
  fileName : String
  nFrames : Nat
  done : Bool
  alignment : Option MovieAlignment := none
deriving DecidableEq, Repr

/-- A derived micrograph artifact. -/
structure Micrograph where
  objId : Nat
  micName : String
  fileName : String
deriving DecidableEq, Repr

/-- Copied-forward metadata of a set (what `copyInfo` transfers). -/
abbrev SetInfo := String

/-- A persisted output set file (`movies*.sqlite` / `micrographs.sqlite`):
items in append order plus the persisted properties. -/
structure SavedSet (α : Type) where
  items : List α
  streamState : StreamState
  samplingRate : ℚ
  info : SetInfo
deriving DecidableEq, Repr

/-- An output set loaded in memory during a pass. -/
structure OutSet (α : Type) where
  items : List α
  streamState : StreamState
  appendEnabled : Bool
  samplingRate : ℚ
  info : SetInfo
deriving DecidableEq, Repr

/-- Alignment / output parameters of the protocol form
(`_defineAlignmentParams`), plus the `_doGenerateOutputMovies` hook value. -/
structure Config where
  doSaveAveMic : Bool
  doSaveMovie : Bool
  doGenerateOutputMovies : Bool
  binFactor : ℚ
  alignFrame0 : Int
  alignFrameN : Int
  sumFrame0 : Int
  sumFrameN : Int
  cropOffsetX : Int
  cropOffsetY : Int
  cropDimX : Int
  cropDimY : Int
deriving DecidableEq, Repr

/-- The protocol state visible to one reconciliation pass: the cached
`finished` attribute (`getattr(self, 'finished', False)`), the persisted
done-identifier log, the currently known input movies and stream flag, the
two persisted output set files, the downstream join step's status
(`_getFirstJoinStep()`, `None` when absent) and the persisted provenance
relations. -/
structure ProtState where
  cfg : Config
  inputInfo : SetInfo
  inputSampling : ℚ
  listOfMovies : List Movie
  streamClosed : Bool
  finished : Bool
  doneLog : List Nat
  movieFile : Option (SavedSet Movie)
  micFile : Option (SavedSet Micrograph)
  joinStep : Option StepStatus
  relLog : List RelKind
deriving DecidableEq, Repr

/-- Externally visible actions of a pass, in execution order. -/
inductive Event where
  | markDone : List Nat → Event
  | transform : Nat → Event
  | appendMovie : Nat → Event
  | appendMic : Nat → Event
  | updateMovies : StreamState → Event
  | updateMics : StreamState → Event
  | relation : RelKind → Event
  | setRunnable : Event
deriving DecidableEq, Repr

/-! ## Collaborators of `_checkNewOutput` -/

/-- Modelled from the spec: `DoneSet.load()` reconstructs the set of
processed identifiers from the persisted append-only log (`_readDoneList`,
which lives outside the sources at hand). -/
def readDoneList (s : ProtState) : List Nat :=
  s.doneLog

/-- `_isMovieDone`: the external readiness predicate of a work item. -/
def isMovieDone (m : Movie) : Bool :=
  m.done

/-- Modelled from the spec: removing the directory part and the extension of
a file name (`pwutils.removeBaseExt`, outside the sources at hand). -/
def removeBaseExt (path : String) : String :=
  let base := (path.splitOn "/").getLastD path
  let parts := base.splitOn "."
  if parts.length ≤ 1 then base else String.intercalate "." parts.dropLast

/-- Modelled from the spec: `self._getExtraPath(f)` resolves `f` under the
run's `extra` folder (framework helper outside the sources at hand). -/
def getExtraPath (f : String) : String :=
  "extra/" ++ f

/-- `_getMovieRoot`. -/
def getMovieRoot (m : Movie) : String :=
  removeBaseExt m.fileName

/-- `_getOutputMovieName`. -/
def getOutputMovieName (m : Movie) : String :=
  getMovieRoot m ++ "_aligned_movie.mrcs"

/-- `_getOutputMicName`. -/
def getOutputMicName (m : Movie) : String :=
  getMovieRoot m ++ "_aligned_mic.mrc"

/-- `_getMovieShifts`: the base-class default returns empty shift lists. -/
def getMovieShifts (_m : Movie) : List ℚ × List ℚ :=
  ([], [])

/-- `_getFrameRange n prefix`: first frame is `1 + <prefix>Frame0`, last is
`n - <prefix>FrameN`; `alignRange = true` selects the `align` prefix,
`false` the `sum` prefix. -/
def getFrameRange (cfg : Config) (n : Nat) (alignRange : Bool) : Int × Int :=
  let first := 1 + (if alignRange then cfg.alignFrame0 else cfg.sumFrame0)
  let last := (n : Int) - (if alignRange then cfg.alignFrameN else cfg.sumFrameN)
  (first, last)

/-- `_createOutputMovie`: clone the movie, pick the align frame range, set
the output file name and zero shifts when the aligned movie is saved
(`[0] * (last - first + 1)`, empty on a negative count as in Python),
otherwise keep the original file and use `_getMovieShifts`; attach the
`MovieAlignment` with the crop ROI. -/
def createOutputMovie (cfg : Config) (m : Movie) : Movie :=
  let fr := getFrameRange cfg m.nFrames true
  let fileName := if cfg.doSaveMovie then getExtraPath (getOutputMovieName m) else m.fileName
  let shifts :=
    if cfg.doSaveMovie then
      (List.replicate (fr.2 - fr.1 + 1).toNat (0 : ℚ),
       List.replicate (fr.2 - fr.1 + 1).toNat (0 : ℚ))
    else getMovieShifts m
  { m with
    fileName := fileName
    alignment := some
      { first := fr.1, last := fr.2, xshifts := shifts.1, yshifts := shifts.2,
        roi := [cfg.cropOffsetX, cfg.cropOffsetY, cfg.cropDimX, cfg.cropDimY] } }

/-- The micrograph built for one movie in `_checkNewOutput`
(lines 155–162): fresh item, `copyObjId(movie)`, `setMicName`, file name in
the extra path; `_preprocessOutputMicrograph` is a no-op in the base class. -/
def createOutputMic (m : Movie) : Micrograph :=
  { objId := m.objId, micName := m.micName,
    fileName := getExtraPath (getOutputMicName m) }

/-! ## `_loadOutputSet` -/

/-- Modelled from the spec: `loadAllProperties` restores the persisted
properties (stream state, sampling, copied metadata) of an existing set
file together with its items. -/
def loadAllProperties {α : Type} (saved : SavedSet α) : OutSet α :=
  { items := saved.items, streamState := saved.streamState,
    appendEnabled := false, samplingRate := saved.samplingRate,
    info := saved.info }

/-- Modelled from the spec: `enableAppend` puts a loaded collection in
OPEN-for-append (resume) state. -/
def enableAppend {α : Type} (os : OutSet α) : OutSet α :=
  { os with appendEnabled := true, streamState := StreamState.sOpen }

/-- A freshly constructed set (`SetClass(filename=setFile)` on a missing
file) before `setStreamState(STREAM_OPEN)` is applied. -/
def newSet (α : Type) : OutSet α :=
  { items := [], streamState := StreamState.sOpen, appendEnabled := true,
    samplingRate := 1, info := "" }

/-- `copyInfo`: overwrite the copied-forward metadata from the input set. -/
def copyInfo {α : Type} (os : OutSet α) (info : SetInfo) : OutSet α :=
  { os with info := info }

/-- `setSamplingRate`. -/
def setSamplingRate {α : Type} (os : OutSet α) (sr : ℚ) : OutSet α :=
  { os with samplingRate := sr }

/-- `_loadOutputSet`: load the output set from its file when it exists
(`loadAllProperties` then `enableAppend`), otherwise create a new one with
stream state OPEN; in both cases copy the metadata of the current input
movies and set the sampling rate to the input rate times the binning
factor. -/
def loadOutputSet {α : Type} (file : Option (SavedSet α)) (inputInfo : SetInfo)
    (inputSampling binFactor : ℚ) : OutSet α :=
  let outputSet :=
    match file with
    | some saved => enableAppend (loadAllProperties saved)
    | none => { newSet α with streamState := StreamState.sOpen }
  setSamplingRate (copyInfo outputSet inputInfo) (inputSampling * binFactor)

/-- Modelled from the spec: `_updateOutputSet` sets the given stream state
on the output set and persists it (items and properties) to its file. -/
def persistSet {α : Type} (os : OutSet α) (st : StreamState) : SavedSet α :=
  { items := os.items, streamState := st, samplingRate := os.samplingRate,
    info := os.info }

/-! ## `_checkNewOutput` -/

/-- The newly done candidates of a pass (lines 124–125): known movies whose
identifier is not in the done list and whose readiness predicate holds. -/
def newDoneOf (s : ProtState) : List Movie :=
  s.listOfMovies.filter (fun m => !((readDoneList s).contains m.objId) && isMovieDone m)

/-- State effect of the `_doGenerateOutputMovies` branch (lines 138–149):
load the movie output set, transform and append each newly done movie,
persist with the pass's stream mode, and on a `firstTime` pass record the
transform relation. -/
def moviesBranchState (s : ProtState) (newDone : List Movie) (firstTime : Bool)
    (streamMode : StreamState) : ProtState :=
  if s.cfg.doGenerateOutputMovies then
    let movieSet := loadOutputSet s.movieFile s.inputInfo s.inputSampling s.cfg.binFactor
    let movieSet :=
      { movieSet with items := movieSet.items ++ newDone.map (createOutputMovie s.cfg) }
    { s with
      movieFile := some (persistSet movieSet streamMode)
      relLog := s.relLog ++ (if firstTime then [RelKind.transformRel] else []) }
  else s

/-- Trace of the `_doGenerateOutputMovies` branch, in execution order. -/
def moviesBranchTrace (s : ProtState) (newDone : List Movie) (firstTime : Bool)
    (streamMode : StreamState) : List Event :=
  if s.cfg.doGenerateOutputMovies then
    (newDone.flatMap fun m => [Event.transform m.objId, Event.appendMovie m.objId])
      ++ [Event.updateMovies streamMode]
      ++ (if firstTime then [Event.relation RelKind.transformRel] else [])
  else []

/-- State effect of the `doSaveAveMic` branch (lines 151–168): load the
micrograph output set, build and append one micrograph per newly done
movie, persist with the pass's stream mode, and on a `firstTime` pass
record the source relation. -/
def micsBranchState (s : ProtState) (newDone : List Movie) (firstTime : Bool)
    (streamMode : StreamState) : ProtState :=
  if s.cfg.doSaveAveMic then
    let micSet : OutSet Micrograph :=
      loadOutputSet s.micFile s.inputInfo s.inputSampling s.cfg.binFactor
    let micSet := { micSet with items := micSet.items ++ newDone.map createOutputMic }
    { s with
      micFile := some (persistSet micSet streamMode)
      relLog := s.relLog ++ (if firstTime then [RelKind.sourceRel] else []) }
  else s

/-- Trace of the `doSaveAveMic` branch, in execution order. -/
def micsBranchTrace (s : ProtState) (newDone : List Movie) (firstTime : Bool)
    (streamMode : StreamState) : List Event :=
  if s.cfg.doSaveAveMic then
    (newDone.map fun m => Event.appendMic m.objId)
      ++ [Event.updateMics streamMode]
      ++ (if firstTime then [Event.relation RelKind.sourceRel] else [])
  else []

/-- State effect of the finalization (lines 170–173): when the pass is
finished and the first join step exists and is waiting, set its status to
`STATUS_NEW`. -/
def joinPhaseState (s : ProtState) (finishedNow : Bool) : ProtState :=
  if finishedNow then
    match s.joinStep with
    | some StepStatus.waiting => { s with joinStep := some StepStatus.statusNew }
    | _ => s
  else s

/-- Trace of the finalization. -/
def joinPhaseTrace (s : ProtState) (finishedNow : Bool) : List Event :=
  if finishedNow then
    match s.joinStep with
    | some StepStatus.waiting => [Event.setRunnable]
    | _ => []
  else []

/-- `_checkNewOutput`: one reconciliation pass. Returns early when the
cached `finished` attribute is set. Otherwise: read the done list, compute
the newly done movies, write them to the done log when non-empty
(`_writeDoneList`), compute `firstTime`, `allDone`, the finished predicate
and the stream mode, run the two output branches and the finalization.
The second component is the trace of the pass's actions in execution
order. -/
def checkNewOutput (s : ProtState) : ProtState × List Event :=
  if s.finished then (s, [])
  else
    let doneList := readDoneList s
    let newDone := newDoneOf s
    let doneEvents : List Event :=
      if newDone.isEmpty then [] else [Event.markDone (newDone.map (fun m => m.objId))]
    let firstTime := doneList.isEmpty
    let allDone := doneList.length + newDone.length
    let finishedNow := s.streamClosed && (allDone == s.listOfMovies.length)
    let streamMode := if finishedNow then StreamState.sClosed else StreamState.sOpen
    let sA :=
      { s with
        doneLog :=
          if newDone.isEmpty then s.doneLog
          else s.doneLog ++ newDone.map (fun m => m.objId)
        finished := finishedNow }
    let sB := moviesBranchState sA newDone firstTime streamMode
    let sC := micsBranchState sB newDone firstTime streamMode
    let sD := joinPhaseState sC finishedNow
    (sD,
     doneEvents
       ++ moviesBranchTrace sA newDone firstTime streamMode
       ++ micsBranchTrace sB newDone firstTime streamMode
       ++ joinPhaseTrace sC finishedNow)

/-! ## Observables -/

/-- The finished predicate of a pass, recomputed from the persisted done
log, the readiness of the known movies and the stream flag (lines 131–135):
stream closed and previously done plus newly done equals the number of
known movies. -/
def finishedPred (s : ProtState) : Bool :=
  s.streamClosed && ((readDoneList s).length + (newDoneOf s).length == s.listOfMovies.length)

/-- Identifiers stored in the persisted movie output file. -/
def movieFileIds (s : ProtState) : List Nat :=
  (match s.movieFile with
   | some sv => sv.items
   | none => []).map (fun m : Movie => m.objId)

/-- Identifiers stored in the persisted micrograph output file. -/
def micFileIds (s : ProtState) : List Nat :=
  (match s.micFile with
   | some sv => sv.items
   | none => []).map (fun mic : Micrograph => mic.objId)

/-- Stream state recorded in the persisted movie output file. -/
def movieFileState (s : ProtState) : Option StreamState :=
  s.movieFile.map (fun sv => sv.streamState)

/-- Stream state recorded in the persisted micrograph output file. -/
def micFileState (s : ProtState) : Option StreamState :=
  s.micFile.map (fun sv => sv.streamState)

/-- Identifiers written to the done log by the events of a trace. -/
def markedIds (tr : List Event) : List Nat :=
  tr.flatMap fun e =>
    match e with
    | Event.markDone ids => ids
    | _ => []

/-- Identifiers for which the domain transform ran, per the trace. -/
def transformIds (tr : List Event) : List Nat :=
  tr.filterMap fun e =>
    match e with
    | Event.transform i => some i
    | _ => none

/-- Identifiers appended to the movie output collection, per the trace. -/
def appendMovieIds (tr : List Event) : List Nat :=
  tr.filterMap fun e =>
    match e with
    | Event.appendMovie i => some i
    | _ => none

/-- Identifiers appended to the micrograph output collection, per the trace. -/
def appendMicIds (tr : List Event) : List Nat :=
  tr.filterMap fun e =>
    match e with
    | Event.appendMic i => some i
    | _ => none

/-- Provenance relations recorded by the events of a trace. -/
def relationEvents (tr : List Event) : List RelKind :=
  tr.filterMap fun e =>
    match e with
    | Event.relation k => some k
    | _ => none

/-- Whether the trace appends an artifact with identifier `i` to either
output collection. -/
def isAppendOf (i : Nat) : Event → Bool
  | Event.appendMovie j => i == j
  | Event.appendMic j => i == j
  | _ => false

/-- `true` when some identifier is appended to an output collection after
already having been written to the done log, i.e. the trace violates the
append-before-mark ordering. -/
def markThenAppend : List Event → Bool
  | [] => false
  | Event.markDone ids :: rest =>
      ids.any (fun i => rest.any (isAppendOf i)) || markThenAppend rest
  | _ :: rest => markThenAppend rest

/-- Every identifier in the persisted done log already has its derived
artifact in every output collection the stage writes: in the movie output
file when `doGenerateOutputMovies`, in the micrograph output file when
`doSaveAveMic`. -/
def doneInvariant (s : ProtState) : Prop :=
  ∀ i ∈ s.doneLog,
    (s.cfg.doGenerateOutputMovies = true → i ∈ movieFileIds s)
    ∧ (s.cfg.doSaveAveMic = true → i ∈ micFileIds s)

instance decidableDoneInvariant (s : ProtState) : Decidable (doneInvariant s) := by
  unfold doneInvariant
  infer_instance

/-! ## Concrete states used by witnesses and counterexamples -/

/-- A configuration with both output collections enabled, no binning, no
frame trimming and no cropping. -/
def cfg0 : Config :=
  { doSaveAveMic := true, doSaveMovie := false, doGenerateOutputMovies := true,
    binFactor := 1, alignFrame0 := 0, alignFrameN := 0, sumFrame0 := 0, sumFrameN := 0,
    cropOffsetX := 0, cropOffsetY := 0, cropDimX := 0, cropDimY := 0 }

/-- A movie work item with identifier 1; `ready` is its readiness flag. -/
def movie1 (ready : Bool) : Movie :=
  { objId := 1, micName := "movie1", fileName := "data/movie1.mrcs", nFrames := 8,
    done := ready }

/-- First pass of a fresh run: one ready movie, stream still open, join step
waiting, nothing persisted yet. -/
def exReady : ProtState :=
  { cfg := cfg0, inputInfo := "acq", inputSampling := 2, listOfMovies := [movie1 true],
    streamClosed := false, finished := false, doneLog := [], movieFile := none,
    micFile := none, joinStep := some StepStatus.waiting, relLog := [] }

/-- Like `exReady` but the single known movie is not ready yet. -/
def exNotReady : ProtState :=
  { exReady with listOfMovies := [movie1 false] }

/-- Like `exReady` but with the cached `finished` attribute already set. -/
def exCached : ProtState :=
  { exReady with finished := true }

/-- A finishing pass with zero new candidates: the only movie is already in
the done log and the input stream is closed. -/
def exDone : ProtState :=
  { exReady with
    doneLog := [1]
    streamClosed := true
    movieFile := some { items := [createOutputMovie cfg0 (movie1 true)],
                        streamState := StreamState.sOpen, samplingRate := 2, info := "acq" }
    micFile := some { items := [createOutputMic (movie1 true)],
                      streamState := StreamState.sOpen, samplingRate := 2, info := "acq" } }

/-- The state after a first pass that discovered nothing, with the movie
having become ready in the meantime. -/
def exC7b : ProtState :=
  { (checkNewOutput exNotReady).1 with listOfMovies := [movie1 true] }

/-! ## Basic lemmas about the collaborators -/

theorem createOutputMovie_objId (cfg : Config) (m : Movie) :
    (createOutputMovie cfg m).objId = m.objId := rfl

theorem createOutputMic_objId (m : Movie) :
    (createOutputMic m).objId = m.objId := rfl

theorem createOutputMic_micName (m : Movie) :
    (createOutputMic m).micName = m.micName := rfl

theorem loadOutputSet_items {α : Type} (file : Option (SavedSet α)) (i : SetInfo)
    (sr bf : ℚ) :
    (loadOutputSet file i sr bf).items =
      match file with
      | some sv => sv.items
      | none => [] := by
  cases file <;> rfl

theorem loadOutputSet_samplingRate {α : Type} (file : Option (SavedSet α)) (i : SetInfo)
    (sr bf : ℚ) :
    (loadOutputSet file i sr bf).samplingRate = sr * bf := by
  cases file <;> rfl

theorem loadOutputSet_info {α : Type} (file : Option (SavedSet α)) (i : SetInfo)
    (sr bf : ℚ) :
    (loadOutputSet file i sr bf).info = i := by
  cases file <;> rfl

/-! ## Frame lemmas: what each phase of a pass leaves untouched -/

theorem moviesBranchState_doneLog (s : ProtState) (nd : List Movie) (ft : Bool)
    (sm : StreamState) : (moviesBranchState s nd ft sm).doneLog = s.doneLog := by
  unfold moviesBranchState; split <;> rfl

theorem moviesBranchState_micFile (s : ProtState) (nd : List Movie) (ft : Bool)
    (sm : StreamState) : (moviesBranchState s nd ft sm).micFile = s.micFile := by
  unfold moviesBranchState; split <;> rfl

theorem moviesBranchState_joinStep (s : ProtState) (nd : List Movie) (ft : Bool)
    (sm : StreamState) : (moviesBranchState s nd ft sm).joinStep = s.joinStep := by
  unfold moviesBranchState; split <;> rfl

theorem moviesBranchState_finished (s : ProtState) (nd : List Movie) (ft : Bool)
    (sm : StreamState) : (moviesBranchState s nd ft sm).finished = s.finished := by
  unfold moviesBranchState; split <;> rfl

theorem moviesBranchState_cfg (s : ProtState) (nd : List Movie) (ft : Bool)
    (sm : StreamState) : (moviesBranchState s nd ft sm).cfg = s.cfg := by
  unfold moviesBranchState; split <;> rfl

theorem moviesBranchState_inputInfo (s : ProtState) (nd : List Movie) (ft : Bool)
    (sm : StreamState) : (moviesBranchState s nd ft sm).inputInfo = s.inputInfo := by
  unfold moviesBranchState; split <;> rfl

theorem moviesBranchState_inputSampling (s : ProtState) (nd : List Movie) (ft : Bool)
    (sm : StreamState) : (moviesBranchState s nd ft sm).inputSampling = s.inputSampling := by
  unfold moviesBranchState; split <;> rfl

theorem moviesBranchState_listOfMovies (s : ProtState) (nd : List Movie) (ft : Bool)
    (sm : StreamState) : (moviesBranchState s nd ft sm).listOfMovies = s.listOfMovies := by
  unfold moviesBranchState; split <;> rfl

theorem moviesBranchState_streamClosed (s : ProtState) (nd : List Movie) (ft : Bool)
    (sm : StreamState) : (moviesBranchState s nd ft sm).streamClosed = s.streamClosed := by
  unfold moviesBranchState; split <;> rfl

theorem micsBranchState_doneLog (s : ProtState) (nd : List Movie) (ft : Bool)
    (sm : StreamState) : (micsBranchState s nd ft sm).doneLog = s.doneLog := by
  unfold micsBranchState; split <;> rfl

theorem micsBranchState_movieFile (s : ProtState) (nd : List Movie) (ft : Bool)
    (sm : StreamState) : (micsBranchState s nd ft sm).movieFile = s.movieFile := by
  unfold micsBranchState; split <;> rfl

theorem micsBranchState_joinStep (s : ProtState) (nd : List Movie) (ft : Bool)
    (sm : StreamState) : (micsBranchState s nd ft sm).joinStep = s.joinStep := by
  unfold micsBranchState; split <;> rfl

theorem micsBranchState_finished (s : ProtState) (nd : List Movie) (ft : Bool)
    (sm : StreamState) : (micsBranchState s nd ft sm).finished = s.finished := by
  unfold micsBranchState; split <;> rfl

theorem micsBranchState_cfg (s : ProtState) (nd : List Movie) (ft : Bool)
    (sm : StreamState) : (micsBranchState s nd ft sm).cfg = s.cfg := by
  unfold micsBranchState; split <;> rfl

theorem micsBranchState_inputInfo (s : ProtState) (nd : List Movie) (ft : Bool)
    (sm : StreamState) : (micsBranchState s nd ft sm).inputInfo = s.inputInfo := by
  unfold micsBranchState; split <;> rfl

theorem micsBranchState_inputSampling (s : ProtState) (nd : List Movie) (ft : Bool)
    (sm : StreamState) : (micsBranchState s nd ft sm).inputSampling = s.inputSampling := by
  unfold micsBranchState; split <;> rfl

theorem micsBranchState_listOfMovies (s : ProtState) (nd : List Movie) (ft : Bool)
    (sm : StreamState) : (micsBranchState s nd ft sm).listOfMovies = s.listOfMovies := by
  unfold micsBranchState; split <;> rfl

theorem micsBranchState_streamClosed (s : ProtState) (nd : List Movie) (ft : Bool)
    (sm : StreamState) : (micsBranchState s nd ft sm).streamClosed = s.streamClosed := by
  unfold micsBranchState; split <;> rfl

theorem joinPhaseState_doneLog (s : ProtState) (b : Bool) :
    (joinPhaseState s b).doneLog = s.doneLog := by
  unfold joinPhaseState
  split
  · split <;> rfl
  · rfl

theorem joinPhaseState_movieFile (s : ProtState) (b : Bool) :
    (joinPhaseState s b).movieFile = s.movieFile := by
  unfold joinPhaseState
  split
  · split <;> rfl
  · rfl

theorem joinPhaseState_micFile (s : ProtState) (b : Bool) :
    (joinPhaseState s b).micFile = s.micFile := by
  unfold joinPhaseState
  split
  · split <;> rfl
  · rfl

theorem joinPhaseState_finished (s : ProtState) (b : Bool) :
    (joinPhaseState s b).finished = s.finished := by
  unfold joinPhaseState
  split
  · split <;> rfl
  · rfl

theorem joinPhaseState_relLog (s : ProtState) (b : Bool) :
    (joinPhaseState s b).relLog = s.relLog := by
  unfold joinPhaseState
  split
  · split <;> rfl
  · rfl

theorem joinPhaseState_joinStep (s : ProtState) (b : Bool) :
    (joinPhaseState s b).joinStep =
      if b then
        match s.joinStep with
        | some StepStatus.waiting => some StepStatus.statusNew
        | j => j
      else s.joinStep := by
  unfold joinPhaseState
  split
  · split <;> rfl
  · rfl

/-! ## Characterization of each phase's effect -/

theorem moviesBranchState_movieFile_some (s : ProtState) (nd : List Movie) (ft : Bool)
    (sm : StreamState) (hg : s.cfg.doGenerateOutputMovies = true) :
    (moviesBranchState s nd ft sm).movieFile =
      some
        { items := (loadOutputSet s.movieFile s.inputInfo s.inputSampling s.cfg.binFactor).items
                     ++ nd.map (createOutputMovie s.cfg)
          streamState := sm
          samplingRate := s.inputSampling * s.cfg.binFactor
          info := s.inputInfo } := by
  unfold moviesBranchState
  simp [hg, persistSet, loadOutputSet_samplingRate, loadOutputSet_info]

theorem moviesBranchState_movieFile_skip (s : ProtState) (nd : List Movie) (ft : Bool)
    (sm : StreamState) (hg : s.cfg.doGenerateOutputMovies = false) :
    (moviesBranchState s nd ft sm).movieFile = s.movieFile := by
  unfold moviesBranchState
  simp [hg]

theorem moviesBranchState_relLog (s : ProtState) (nd : List Movie) (ft : Bool)
    (sm : StreamState) :
    (moviesBranchState s nd ft sm).relLog =
      s.relLog ++
        (if s.cfg.doGenerateOutputMovies && ft then [RelKind.transformRel] else []) := by
  unfold moviesBranchState
  cases hg : s.cfg.doGenerateOutputMovies <;> simp [hg]

theorem micsBranchState_micFile_some (s : ProtState) (nd : List Movie) (ft : Bool)
    (sm : StreamState) (hg : s.cfg.doSaveAveMic = true) :
    (micsBranchState s nd ft sm).micFile =
      some
        { items := (loadOutputSet s.micFile s.inputInfo s.inputSampling s.cfg.binFactor).items
                     ++ nd.map createOutputMic
          streamState := sm
          samplingRate := s.inputSampling * s.cfg.binFactor
          info := s.inputInfo } := by
  unfold micsBranchState
  simp [hg, persistSet, loadOutputSet_samplingRate, loadOutputSet_info]

theorem micsBranchState_micFile_skip (s : ProtState) (nd : List Movie) (ft : Bool)
    (sm : StreamState) (hg : s.cfg.doSaveAveMic = false) :
    (micsBranchState s nd ft sm).micFile = s.micFile := by
  unfold micsBranchState
  simp [hg]

theorem micsBranchState_relLog (s : ProtState) (nd : List Movie) (ft : Bool)
    (sm : StreamState) :
    (micsBranchState s nd ft sm).relLog =
      s.relLog ++ (if s.cfg.doSaveAveMic && ft then [RelKind.sourceRel] else []) := by
  unfold micsBranchState
  cases hg : s.cfg.doSaveAveMic <;> simp [hg]

/-! ## Trace extractor lemmas -/

theorem transformIds_append (a b : List Event) :
    transformIds (a ++ b) = transformIds a ++ transformIds b := by
  simp [transformIds, List.filterMap_append]

theorem appendMovieIds_append (a b : List Event) :
    appendMovieIds (a ++ b) = appendMovieIds a ++ appendMovieIds b := by
  simp [appendMovieIds, List.filterMap_append]

theorem appendMicIds_append (a b : List Event) :
    appendMicIds (a ++ b) = appendMicIds a ++ appendMicIds b := by
  simp [appendMicIds, List.filterMap_append]

theorem markedIds_append (a b : List Event) :
    markedIds (a ++ b) = markedIds a ++ markedIds b := by
  simp [markedIds]

theorem relationEvents_append (a b : List Event) :
    relationEvents (a ++ b) = relationEvents a ++ relationEvents b := by
  simp [relationEvents, List.filterMap_append]

theorem transformIds_pairs (nd : List Movie) :
    transformIds (nd.flatMap fun m => [Event.transform m.objId, Event.appendMovie m.objId])
      = nd.map (fun m => m.objId) := by
  induction nd with
  | nil => rfl
  | cons m tl ih => simp [transformIds, List.filterMap_cons] at ih ⊢; exact ih

theorem appendMovieIds_pairs (nd : List Movie) :
    appendMovieIds (nd.flatMap fun m => [Event.transform m.objId, Event.appendMovie m.objId])
      = nd.map (fun m => m.objId) := by
  induction nd with
  | nil => rfl
  | cons m tl ih => simp [appendMovieIds, List.filterMap_cons] at ih ⊢; exact ih

theorem appendMicIds_pairs (nd : List Movie) :
    appendMicIds (nd.flatMap fun m => [Event.transform m.objId, Event.appendMovie m.objId])
      = [] := by
  induction nd with
  | nil => rfl
  | cons m tl ih => simp [appendMicIds, List.filterMap_cons] at ih ⊢; exact ih

theorem markedIds_pairs (nd : List Movie) :
    markedIds (nd.flatMap fun m => [Event.transform m.objId, Event.appendMovie m.objId])
      = [] := by
  induction nd with
  | nil => rfl
  | cons m tl ih => simp [markedIds] at ih ⊢; exact ih

theorem relationEvents_pairs (nd : List Movie) :
    relationEvents (nd.flatMap fun m => [Event.transform m.objId, Event.appendMovie m.objId])
      = [] := by
  induction nd with
  | nil => rfl
  | cons m tl ih => simp [relationEvents, List.filterMap_cons] at ih ⊢; exact ih

theorem appendMicIds_micEvents (nd : List Movie) :
    appendMicIds (nd.map fun m => Event.appendMic m.objId) = nd.map (fun m => m.objId) := by
  induction nd with
  | nil => rfl
  | cons m tl ih => simp [appendMicIds, List.filterMap_cons] at ih ⊢; exact ih

theorem transformIds_micEvents (nd : List Movie) :
    transformIds (nd.map fun m => Event.appendMic m.objId) = [] := by
  induction nd with
  | nil => rfl
  | cons m tl ih => simp [transformIds, List.filterMap_cons] at ih ⊢

theorem appendMovieIds_micEvents (nd : List Movie) :
    appendMovieIds (nd.map fun m => Event.appendMic m.objId) = [] := by
  induction nd with
  | nil => rfl
  | cons m tl ih => simp [appendMovieIds, List.filterMap_cons] at ih ⊢

theorem markedIds_micEvents (nd : List Movie) :
    markedIds (nd.map fun m => Event.appendMic m.objId) = [] := by
  induction nd with
  | nil => rfl
  | cons m tl ih => simp [markedIds] at ih ⊢

theorem relationEvents_micEvents (nd : List Movie) :
    relationEvents (nd.map fun m => Event.appendMic m.objId) = [] := by
  induction nd with
  | nil => rfl
  | cons m tl ih => simp [relationEvents, List.filterMap_cons] at ih ⊢

/-! ## Whole-pass characterization lemmas -/

theorem checkNewOutput_of_finished (s : ProtState) (h : s.finished = true) :
    checkNewOutput s = (s, []) := by
  unfold checkNewOutput
  simp [h]

theorem pass_doneLog (s : ProtState) (h : s.finished = false) :
    (checkNewOutput s).1.doneLog = s.doneLog ++ (newDoneOf s).map (fun m => m.objId) := by
  unfold checkNewOutput
  simp only [h, Bool.false_eq_true, if_false, joinPhaseState_doneLog, micsBranchState_doneLog,
    moviesBranchState_doneLog]
  cases hne : (newDoneOf s).isEmpty
  · simp [hne]
  · simp [hne, List.isEmpty_iff.mp hne]

theorem pass_finished (s : ProtState) (h : s.finished = false) :
    (checkNewOutput s).1.finished = finishedPred s := by
  unfold checkNewOutput
  simp [h, joinPhaseState_finished, micsBranchState_finished, moviesBranchState_finished,
    finishedPred]

theorem pass_cfg (s : ProtState) (h : s.finished = false) :
    (checkNewOutput s).1.cfg = s.cfg := by
  unfold checkNewOutput joinPhaseState
  simp only [h, Bool.false_eq_true, if_false]
  split
  · split <;> simp [micsBranchState_cfg, moviesBranchState_cfg]
  · simp [micsBranchState_cfg, moviesBranchState_cfg]

theorem pass_listOfMovies (s : ProtState) (h : s.finished = false) :
    (checkNewOutput s).1.listOfMovies = s.listOfMovies := by
  unfold checkNewOutput joinPhaseState
  simp only [h, Bool.false_eq_true, if_false]
  split
  · split <;> simp [micsBranchState_listOfMovies, moviesBranchState_listOfMovies]
  · simp [micsBranchState_listOfMovies, moviesBranchState_listOfMovies]

theorem pass_streamClosed (s : ProtState) (h : s.finished = false) :
    (checkNewOutput s).1.streamClosed = s.streamClosed := by
  unfold checkNewOutput joinPhaseState
  simp only [h, Bool.false_eq_true, if_false]
  split
  · split <;> simp [micsBranchState_streamClosed, moviesBranchState_streamClosed]
  · simp [micsBranchState_streamClosed, moviesBranchState_streamClosed]

theorem pass_movieFile (s : ProtState) (h : s.finished = false)
    (hg : s.cfg.doGenerateOutputMovies = true) :
    (checkNewOutput s).1.movieFile =
      some
        { items := (loadOutputSet s.movieFile s.inputInfo s.inputSampling s.cfg.binFactor).items
                     ++ (newDoneOf s).map (createOutputMovie s.cfg)
          streamState := if finishedPred s then StreamState.sClosed else StreamState.sOpen
          samplingRate := s.inputSampling * s.cfg.binFactor
          info := s.inputInfo } := by
  unfold checkNewOutput
  simp [h, hg, joinPhaseState_movieFile, micsBranchState_movieFile,
    moviesBranchState_movieFile_some, finishedPred]

theorem pass_movieFile_skip (s : ProtState) (h : s.finished = false)
    (hg : s.cfg.doGenerateOutputMovies = false) :
    (checkNewOutput s).1.movieFile = s.movieFile := by
  unfold checkNewOutput
  simp [h, hg, joinPhaseState_movieFile, micsBranchState_movieFile,
    moviesBranchState_movieFile_skip]

theorem pass_micFile (s : ProtState) (h : s.finished = false)
    (hg : s.cfg.doSaveAveMic = true) :
    (checkNewOutput s).1.micFile =
      some
        { items := (loadOutputSet s.micFile s.inputInfo s.inputSampling s.cfg.binFactor).items
                     ++ (newDoneOf s).map createOutputMic
          streamState := if finishedPred s then StreamState.sClosed else StreamState.sOpen
          samplingRate := s.inputSampling * s.cfg.binFactor
          info := s.inputInfo } := by
  unfold checkNewOutput
  simp [h, hg, joinPhaseState_micFile, micsBranchState_micFile_some,
    moviesBranchState_micFile, moviesBranchState_cfg, moviesBranchState_inputInfo,
    moviesBranchState_inputSampling, finishedPred]

theorem pass_micFile_skip (s : ProtState) (h : s.finished = false)
    (hg : s.cfg.doSaveAveMic = false) :
    (checkNewOutput s).1.micFile = s.micFile := by
  unfold checkNewOutput
  simp [h, hg, joinPhaseState_micFile, micsBranchState_micFile_skip,
    moviesBranchState_micFile, moviesBranchState_cfg]

theorem pass_joinStep (s : ProtState) (h : s.finished = false) :
    (checkNewOutput s).1.joinStep =
      if finishedPred s then
        match s.joinStep with
        | some StepStatus.waiting => some StepStatus.statusNew
        | j => j
      else s.joinStep := by
  unfold checkNewOutput
  simp [h, joinPhaseState_joinStep, micsBranchState_joinStep, moviesBranchState_joinStep,
    finishedPred]

theorem pass_relLog (s : ProtState) (h : s.finished = false) :
    (checkNewOutput s).1.relLog =
      s.relLog ++
        ((if s.cfg.doGenerateOutputMovies && s.doneLog.isEmpty then [RelKind.transformRel] else [])
          ++ (if s.cfg.doSaveAveMic && s.doneLog.isEmpty then [RelKind.sourceRel] else [])) := by
  unfold checkNewOutput
  simp [h, joinPhaseState_relLog, micsBranchState_relLog, moviesBranchState_relLog,
    moviesBranchState_cfg, readDoneList, List.append_assoc]

theorem joinPhaseTrace_cases (s : ProtState) (b : Bool) :
    joinPhaseTrace s b = [] ∨ joinPhaseTrace s b = [Event.setRunnable] := by
  unfold joinPhaseTrace
  split
  · split
    · right; rfl
    · left; rfl
  · left; rfl

theorem transformIds_joinTrace (s : ProtState) (b : Bool) :
    transformIds (joinPhaseTrace s b) = [] := by
  rcases joinPhaseTrace_cases s b with h | h <;> rw [h] <;> rfl

theorem appendMovieIds_joinTrace (s : ProtState) (b : Bool) :
    appendMovieIds (joinPhaseTrace s b) = [] := by
  rcases joinPhaseTrace_cases s b with h | h <;> rw [h] <;> rfl

theorem appendMicIds_joinTrace (s : ProtState) (b : Bool) :
    appendMicIds (joinPhaseTrace s b) = [] := by
  rcases joinPhaseTrace_cases s b with h | h <;> rw [h] <;> rfl

theorem markedIds_joinTrace (s : ProtState) (b : Bool) :
    markedIds (joinPhaseTrace s b) = [] := by
  rcases joinPhaseTrace_cases s b with h | h <;> rw [h] <;> rfl

theorem relationEvents_joinTrace (s : ProtState) (b : Bool) :
    relationEvents (joinPhaseTrace s b) = [] := by
  rcases joinPhaseTrace_cases s b with h | h <;> rw [h] <;> rfl

theorem transformIds_moviesTrace (s : ProtState) (nd : List Movie) (ft : Bool)
    (sm : StreamState) :
    transformIds (moviesBranchTrace s nd ft sm) =
      if s.cfg.doGenerateOutputMovies then nd.map (fun m => m.objId) else [] := by
  unfold moviesBranchTrace
  cases hg : s.cfg.doGenerateOutputMovies
  · simp [transformIds]
  · rw [if_pos rfl, if_pos rfl, transformIds_append, transformIds_append, transformIds_pairs]
    cases ft <;> simp [transformIds]

theorem appendMovieIds_moviesTrace (s : ProtState) (nd : List Movie) (ft : Bool)
    (sm : StreamState) :
    appendMovieIds (moviesBranchTrace s nd ft sm) =
      if s.cfg.doGenerateOutputMovies then nd.map (fun m => m.objId) else [] := by
  unfold moviesBranchTrace
  cases hg : s.cfg.doGenerateOutputMovies
  · simp [appendMovieIds]
  · rw [if_pos rfl, if_pos rfl, appendMovieIds_append, appendMovieIds_append,
      appendMovieIds_pairs]
    cases ft <;> simp [appendMovieIds]

theorem appendMicIds_moviesTrace (s : ProtState) (nd : List Movie) (ft : Bool)
    (sm : StreamState) :
    appendMicIds (moviesBranchTrace s nd ft sm) = [] := by
  unfold moviesBranchTrace
  cases hg : s.cfg.doGenerateOutputMovies
  · simp [appendMicIds]
  · rw [if_pos rfl, appendMicIds_append, appendMicIds_append, appendMicIds_pairs]
    cases ft <;> simp [appendMicIds]

theorem markedIds_moviesTrace (s : ProtState) (nd : List Movie) (ft : Bool)
    (sm : StreamState) :
    markedIds (moviesBranchTrace s nd ft sm) = [] := by
  unfold moviesBranchTrace
  cases hg : s.cfg.doGenerateOutputMovies
  · simp [markedIds]
  · rw [if_pos rfl, markedIds_append, markedIds_append, markedIds_pairs]
    cases ft <;> simp [markedIds]

theorem relationEvents_moviesTrace (s : ProtState) (nd : List Movie) (ft : Bool)
    (sm : StreamState) :
    relationEvents (moviesBranchTrace s nd ft sm) =
      if s.cfg.doGenerateOutputMovies && ft then [RelKind.transformRel] else [] := by
  unfold moviesBranchTrace
  cases hg : s.cfg.doGenerateOutputMovies
  · simp [relationEvents]
  · rw [if_pos rfl, relationEvents_append, relationEvents_append, relationEvents_pairs]
    cases ft <;> simp [relationEvents]

theorem transformIds_micsTrace (s : ProtState) (nd : List Movie) (ft : Bool)
    (sm : StreamState) :
    transformIds (micsBranchTrace s nd ft sm) = [] := by
  unfold micsBranchTrace
  cases hg : s.cfg.doSaveAveMic
  · simp [transformIds]
  · rw [if_pos rfl, transformIds_append, transformIds_append, transformIds_micEvents]
    cases ft <;> simp [transformIds]

theorem appendMovieIds_micsTrace (s : ProtState) (nd : List Movie) (ft : Bool)
    (sm : StreamState) :
    appendMovieIds (micsBranchTrace s nd ft sm) = [] := by
  unfold micsBranchTrace
  cases hg : s.cfg.doSaveAveMic
  · simp [appendMovieIds]
  · rw [if_pos rfl, appendMovieIds_append, appendMovieIds_append, appendMovieIds_micEvents]
    cases ft <;> simp [appendMovieIds]

theorem appendMicIds_micsTrace (s : ProtState) (nd : List Movie) (ft : Bool)
    (sm : StreamState) :
    appendMicIds (micsBranchTrace s nd ft sm) =
      if s.cfg.doSaveAveMic then nd.map (fun m => m.objId) else [] := by
  unfold micsBranchTrace
  cases hg : s.cfg.doSaveAveMic
  · simp [appendMicIds]
  · rw [if_pos rfl, if_pos rfl, appendMicIds_append, appendMicIds_append,
      appendMicIds_micEvents]
    cases ft <;> simp [appendMicIds]

theorem markedIds_micsTrace (s : ProtState) (nd : List Movie) (ft : Bool)
    (sm : StreamState) :
    markedIds (micsBranchTrace s nd ft sm) = [] := by
  unfold micsBranchTrace
  cases hg : s.cfg.doSaveAveMic
  · simp [markedIds]
  · rw [if_pos rfl, markedIds_append, markedIds_append, markedIds_micEvents]
    cases ft <;> simp [markedIds]

theorem relationEvents_micsTrace (s : ProtState) (nd : List Movie) (ft : Bool)
    (sm : StreamState) :
    relationEvents (micsBranchTrace s nd ft sm) =
      if s.cfg.doSaveAveMic && ft then [RelKind.sourceRel] else [] := by
  unfold micsBranchTrace
  cases hg : s.cfg.doSaveAveMic
  · simp [relationEvents]
  · rw [if_pos rfl, relationEvents_append, relationEvents_append, relationEvents_micEvents]
    cases ft <;> simp [relationEvents]

theorem pass_markedIds (s : ProtState) (h : s.finished = false) :
    markedIds (checkNewOutput s).2 = (newDoneOf s).map (fun m => m.objId) := by
  unfold checkNewOutput
  simp only [h, Bool.false_eq_true, if_false]
  rw [markedIds_append, markedIds_append, markedIds_append,
    markedIds_moviesTrace, markedIds_micsTrace, markedIds_joinTrace]
  cases hne : (newDoneOf s).isEmpty
  · simp [markedIds]
  · simp [markedIds, List.isEmpty_iff.mp hne]

theorem pass_transformIds (s : ProtState) (h : s.finished = false) :
    transformIds (checkNewOutput s).2 =
      if s.cfg.doGenerateOutputMovies then (newDoneOf s).map (fun m => m.objId) else [] := by
  unfold checkNewOutput
  simp only [h, Bool.false_eq_true, if_false]
  rw [transformIds_append, transformIds_append, transformIds_append,
    transformIds_moviesTrace, transformIds_micsTrace, transformIds_joinTrace]
  cases hne : (newDoneOf s).isEmpty <;> simp [transformIds]

theorem pass_appendMovieIds (s : ProtState) (h : s.finished = false) :
    appendMovieIds (checkNewOutput s).2 =
      if s.cfg.doGenerateOutputMovies then (newDoneOf s).map (fun m => m.objId) else [] := by
  unfold checkNewOutput
  simp only [h, Bool.false_eq_true, if_false]
  rw [appendMovieIds_append, appendMovieIds_append, appendMovieIds_append,
    appendMovieIds_moviesTrace, appendMovieIds_micsTrace, appendMovieIds_joinTrace]
  cases hne : (newDoneOf s).isEmpty <;> simp [appendMovieIds]

theorem pass_appendMicIds (s : ProtState) (h : s.finished = false) :
    appendMicIds (checkNewOutput s).2 =
      if s.cfg.doSaveAveMic then (newDoneOf s).map (fun m => m.objId) else [] := by
  unfold checkNewOutput
  simp only [h, Bool.false_eq_true, if_false]
  rw [appendMicIds_append, appendMicIds_append, appendMicIds_append,
    appendMicIds_moviesTrace, appendMicIds_micsTrace, appendMicIds_joinTrace]
  simp only [micsBranchState_cfg, moviesBranchState_cfg]
  cases hne : (newDoneOf s).isEmpty <;> simp [appendMicIds]

theorem pass_relationEvents (s : ProtState) (h : s.finished = false) :
    relationEvents (checkNewOutput s).2 =
      (if s.cfg.doGenerateOutputMovies && s.doneLog.isEmpty then [RelKind.transformRel] else [])
        ++ (if s.cfg.doSaveAveMic && s.doneLog.isEmpty then [RelKind.sourceRel] else []) := by
  unfold checkNewOutput
  simp only [h, Bool.false_eq_true, if_false]
  rw [relationEvents_append, relationEvents_append, relationEvents_append,
    relationEvents_moviesTrace, relationEvents_micsTrace, relationEvents_joinTrace]
  simp only [micsBranchState_cfg, moviesBranchState_cfg, readDoneList]
  cases hne : (newDoneOf s).isEmpty <;> simp [relationEvents]

theorem pass_inputInfo (s : ProtState) (h : s.finished = false) :
    (checkNewOutput s).1.inputInfo = s.inputInfo := by
  unfold checkNewOutput joinPhaseState
  simp only [h, Bool.false_eq_true, if_false]
  split
  · split <;> simp [micsBranchState_inputInfo, moviesBranchState_inputInfo]
  · simp [micsBranchState_inputInfo, moviesBranchState_inputInfo]

theorem pass_inputSampling (s : ProtState) (h : s.finished = false) :
    (checkNewOutput s).1.inputSampling = s.inputSampling := by
  unfold checkNewOutput joinPhaseState
  simp only [h, Bool.false_eq_true, if_false]
  split
  · split <;> simp [micsBranchState_inputSampling, moviesBranchState_inputSampling]
  · simp [micsBranchState_inputSampling, moviesBranchState_inputSampling]

theorem pass_movieFileIds (s : ProtState) (h : s.finished = false)
    (hg : s.cfg.doGenerateOutputMovies = true) :
    movieFileIds (checkNewOutput s).1 =
      movieFileIds s ++ (newDoneOf s).map (fun m => m.objId) := by
  unfold movieFileIds
  rw [pass_movieFile s h hg]
  simp only [loadOutputSet_items, List.map_append, List.map_map]
  cases s.movieFile <;> simp [Function.comp, createOutputMovie_objId]

theorem pass_micFileIds (s : ProtState) (h : s.finished = false)
    (hg : s.cfg.doSaveAveMic = true) :
    micFileIds (checkNewOutput s).1 =
      micFileIds s ++ (newDoneOf s).map (fun m => m.objId) := by
  unfold micFileIds
  rw [pass_micFile s h hg]
  simp only [loadOutputSet_items, List.map_append, List.map_map]
  cases s.micFile <;> simp [Function.comp, createOutputMic_objId]

theorem pass_movieFileIds_skip (s : ProtState) (h : s.finished = false)
    (hg : s.cfg.doGenerateOutputMovies = false) :
    movieFileIds (checkNewOutput s).1 = movieFileIds s := by
  unfold movieFileIds
  rw [pass_movieFile_skip s h hg]

theorem pass_micFileIds_skip (s : ProtState) (h : s.finished = false)
    (hg : s.cfg.doSaveAveMic = false) :
    micFileIds (checkNewOutput s).1 = micFileIds s := by
  unfold micFileIds
  rw [pass_micFile_skip s h hg]

/-- An identifier already in the persisted done list is never a candidate of
the pass. -/
theorem mem_doneLog_not_candidate (s : ProtState) {i : Nat} (hi : i ∈ readDoneList s) :
    i ∉ (newDoneOf s).map (fun m => m.objId) := by
  intro hmem
  rcases List.mem_map.mp hmem with ⟨m, hm, hid⟩
  unfold newDoneOf at hm
  rcases List.mem_filter.mp hm with ⟨-, hpred⟩
  rcases Bool.and_eq_true_iff.mp hpred with ⟨hcont, -⟩
  have hnin : m.objId ∉ readDoneList s := by simpa using hcont
  apply hnin
  rw [hid]
  exact hi

/-- The candidate identifiers of a pass are pairwise distinct when the known
movie identifiers are. -/
theorem candIds_nodup (s : ProtState)
    (hn : (s.listOfMovies.map (fun m => m.objId)).Nodup) :
    ((newDoneOf s).map (fun m => m.objId)).Nodup := by
  have hsub : ((newDoneOf s).map (fun m => m.objId)).Sublist
      (s.listOfMovies.map (fun m => m.objId)) := by
    unfold newDoneOf
    exact (List.filter_sublist _).map _
  exact hn.sublist hsub

/-- A pass of a non-finished state discovers no candidate the second time:
every ready movie is in the done log afterwards. -/
theorem newDoneOf_after (s : ProtState) (h : s.finished = false) :
    newDoneOf (checkNewOutput s).1 = [] := by
  unfold newDoneOf
  apply List.filter_eq_nil_iff.mpr
  intro m hm
  rw [pass_listOfMovies s h] at hm
  intro hpred
  rcases Bool.and_eq_true_iff.mp hpred with ⟨hcont, hdone⟩
  have hnin : m.objId ∉ readDoneList (checkNewOutput s).1 := by simpa using hcont
  apply hnin
  rw [readDoneList, pass_doneLog s h]
  by_cases hd : m.objId ∈ s.doneLog
  · exact List.mem_append_left _ hd
  · apply List.mem_append_right
    apply List.mem_map.mpr
    refine ⟨m, ?_, rfl⟩
    unfold newDoneOf
    apply List.mem_filter.mpr
    refine ⟨hm, ?_⟩
    simp [readDoneList, isMovieDone] at hdone ⊢
    exact ⟨hd, hdone⟩

/-- The finished predicate re-evaluated right after a pass of a non-finished
state has the same value as during that pass. -/
theorem finishedPred_after (s : ProtState) (h : s.finished = false) :
    finishedPred (checkNewOutput s).1 = finishedPred s := by
  unfold finishedPred
  rw [pass_streamClosed s h, pass_listOfMovies s h, newDoneOf_after s h,
    readDoneList, readDoneList, pass_doneLog s h]
  simp [List.length_append]

/-! ## Claims -/

/-- C1 counterexample: in the pass on `exReady` (fresh run, one ready
movie), the done log is written before the output appends: the trace marks
identifier 1 done and appends its artifacts afterwards, so the claimed
append-before-mark ordering is false on this concrete input. -/
theorem claimC1_counterexample :
    exReady.finished = false
      ∧ markedIds (checkNewOutput exReady).2 = [1]
      ∧ appendMovieIds (checkNewOutput exReady).2 = [1]
      ∧ markThenAppend (checkNewOutput exReady).2 = true := by
  refine ⟨rfl, rfl, rfl, rfl⟩

/-- C1 (amended): the done log is written before the output appends within
the same pass (mark-before-append, refuted ordering aside); nevertheless at
every pass boundary the claimed invariant holds: if every identifier in the
done log has its artifacts in every output collection the stage writes
before a pass, the same is true after the pass. -/
theorem claimC1_amended (s : ProtState) (h : doneInvariant s) :
    doneInvariant (checkNewOutput s).1 := by
  cases hf : s.finished with
  | true =>
    rw [checkNewOutput_of_finished s hf]
    exact h
  | false =>
    intro i hi
    rw [pass_doneLog s hf] at hi
    constructor
    · intro hg
      rw [pass_cfg s hf] at hg
      rw [pass_movieFileIds s hf hg]
      rcases List.mem_append.mp hi with hiold | hinew
      · exact List.mem_append_left _ ((h i hiold).1 hg)
      · exact List.mem_append_right _ hinew
    · intro hg
      rw [pass_cfg s hf] at hg
      rw [pass_micFileIds s hf hg]
      rcases List.mem_append.mp hi with hiold | hinew
      · exact List.mem_append_left _ ((h i hiold).2 hg)
      · exact List.mem_append_right _ hinew

/-- Witness for C1 (amended) at the concrete state `exReady`. -/
theorem claimC1_amended_witness :
    doneInvariant exReady ∧ doneInvariant (checkNewOutput exReady).1 :=
  ⟨by decide, claimC1_amended exReady (by decide)⟩

/-- C2: on a pass that runs (cached finished flag unset), the finished
value computed by the pass equals: stream closed AND previously done plus
newly done equals the number of known input movies; and each enabled output
collection's persisted stream state is set to CLOSED exactly when that
value is true, to OPEN otherwise. -/
theorem claimC2 (s : ProtState) (h : s.finished = false) :
    (checkNewOutput s).1.finished
        = (s.streamClosed
            && ((readDoneList s).length + (newDoneOf s).length == s.listOfMovies.length))
      ∧ (s.cfg.doGenerateOutputMovies = true →
          movieFileState (checkNewOutput s).1
            = some (if (checkNewOutput s).1.finished then StreamState.sClosed
                    else StreamState.sOpen))
      ∧ (s.cfg.doSaveAveMic = true →
          micFileState (checkNewOutput s).1
            = some (if (checkNewOutput s).1.finished then StreamState.sClosed
                    else StreamState.sOpen)) := by
  refine ⟨?_, ?_, ?_⟩
  · rw [pass_finished s h]
    rfl
  · intro hg
    unfold movieFileState
    rw [pass_movieFile s h hg, pass_finished s h]
    rfl
  · intro hg
    unfold micFileState
    rw [pass_micFile s h hg, pass_finished s h]
    rfl

/-- Witness for C2 at the concrete state `exReady`. -/
theorem claimC2_witness :
    (checkNewOutput exReady).1.finished
        = (exReady.streamClosed
            && ((readDoneList exReady).length + (newDoneOf exReady).length
                  == exReady.listOfMovies.length))
      ∧ movieFileState (checkNewOutput exReady).1
          = some (if (checkNewOutput exReady).1.finished then StreamState.sClosed
                  else StreamState.sOpen) :=
  ⟨(claimC2 exReady rfl).1, (claimC2 exReady rfl).2.1 rfl⟩

/-- C3: the candidates of a pass are exactly the known movies that are
ready and not in the done list; transform and appends happen exactly for
the candidates (per enabled output collection); nothing is transformed or
appended for an identifier already done; and, given distinct known
identifiers and an output file whose identifiers are all done and distinct,
the output file still has no duplicate identifiers after the pass. -/
theorem claimC3 (s : ProtState) (h : s.finished = false) :
    newDoneOf s
        = s.listOfMovies.filter
            (fun m => !((readDoneList s).contains m.objId) && isMovieDone m)
      ∧ transformIds (checkNewOutput s).2
          = (if s.cfg.doGenerateOutputMovies then (newDoneOf s).map (fun m => m.objId)
             else [])
      ∧ appendMovieIds (checkNewOutput s).2
          = (if s.cfg.doGenerateOutputMovies then (newDoneOf s).map (fun m => m.objId)
             else [])
      ∧ appendMicIds (checkNewOutput s).2
          = (if s.cfg.doSaveAveMic then (newDoneOf s).map (fun m => m.objId) else [])
      ∧ (∀ i ∈ readDoneList s,
            i ∉ transformIds (checkNewOutput s).2
          ∧ i ∉ appendMovieIds (checkNewOutput s).2
          ∧ i ∉ appendMicIds (checkNewOutput s).2)
      ∧ ((s.listOfMovies.map (fun m => m.objId)).Nodup →
          ((movieFileIds s).Nodup ∧ ∀ i ∈ movieFileIds s, i ∈ readDoneList s) →
          (movieFileIds (checkNewOutput s).1).Nodup)
      ∧ ((s.listOfMovies.map (fun m => m.objId)).Nodup →
          ((micFileIds s).Nodup ∧ ∀ i ∈ micFileIds s, i ∈ readDoneList s) →
          (micFileIds (checkNewOutput s).1).Nodup) := by
  refine ⟨rfl, pass_transformIds s h, pass_appendMovieIds s h, pass_appendMicIds s h,
    ?_, ?_, ?_⟩
  · intro i hi
    have hnc := mem_doneLog_not_candidate s hi
    refine ⟨?_, ?_, ?_⟩
    · rw [pass_transformIds s h]
      split
      · exact hnc
      · simp
    · rw [pass_appendMovieIds s h]
      split
      · exact hnc
      · simp
    · rw [pass_appendMicIds s h]
      split
      · exact hnc
      · simp
  · rintro hn ⟨hnodup, hsub⟩
    cases hg : s.cfg.doGenerateOutputMovies with
    | false =>
      rw [pass_movieFileIds_skip s h hg]
      exact hnodup
    | true =>
      rw [pass_movieFileIds s h hg]
      refine hnodup.append (candIds_nodup s hn) ?_
      intro a ha hamem
      exact mem_doneLog_not_candidate s (hsub a ha) hamem
  · rintro hn ⟨hnodup, hsub⟩
    cases hg : s.cfg.doSaveAveMic with
    | false =>
      rw [pass_micFileIds_skip s h hg]
      exact hnodup
    | true =>
      rw [pass_micFileIds s h hg]
      refine hnodup.append (candIds_nodup s hn) ?_
      intro a ha hamem
      exact mem_doneLog_not_candidate s (hsub a ha) hamem

/-- Witness for C3 at the concrete state `exReady`. -/
theorem claimC3_witness :
    transformIds (checkNewOutput exReady).2
        = (if exReady.cfg.doGenerateOutputMovies
           then (newDoneOf exReady).map (fun m => m.objId) else [])
      ∧ appendMicIds (checkNewOutput exReady).2
          = (if exReady.cfg.doSaveAveMic then (newDoneOf exReady).map (fun m => m.objId)
             else [])
      ∧ (movieFileIds (checkNewOutput exReady).1).Nodup :=
  ⟨(claimC3 exReady rfl).2.1, (claimC3 exReady rfl).2.2.2.1,
    (claimC3 exReady rfl).2.2.2.2.2.1 (by decide) (by decide)⟩

/-- C4: running a second reconciliation pass directly after a first one,
with no change to the input in between, leaves the done log and both
persisted output collections exactly as the first pass left them, and the
second pass's trace contains no done-log write, no transform and no append
to either collection. -/
theorem claimC4 (s : ProtState) :
    (checkNewOutput (checkNewOutput s).1).1.doneLog = (checkNewOutput s).1.doneLog
      ∧ (checkNewOutput (checkNewOutput s).1).1.movieFile = (checkNewOutput s).1.movieFile
      ∧ (checkNewOutput (checkNewOutput s).1).1.micFile = (checkNewOutput s).1.micFile
      ∧ markedIds (checkNewOutput (checkNewOutput s).1).2 = []
      ∧ transformIds (checkNewOutput (checkNewOutput s).1).2 = []
      ∧ appendMovieIds (checkNewOutput (checkNewOutput s).1).2 = []
      ∧ appendMicIds (checkNewOutput (checkNewOutput s).1).2 = [] := by
  cases hf : s.finished with
  | true =>
    simp [checkNewOutput_of_finished s hf, markedIds, transformIds, appendMovieIds,
      appendMicIds]
  | false =>
    cases h1 : (checkNewOutput s).1.finished with
    | true =>
      rw [checkNewOutput_of_finished _ h1]
      simp [markedIds, transformIds, appendMovieIds, appendMicIds]
    | false =>
      have hnd := newDoneOf_after s hf
      have hps : finishedPred s = false := by
        rw [← pass_finished s hf]
        exact h1
      refine ⟨?_, ?_, ?_, ?_, ?_, ?_, ?_⟩
      · rw [pass_doneLog _ h1, hnd]
        simp
      · cases hg : (checkNewOutput s).1.cfg.doGenerateOutputMovies with
        | false => exact pass_movieFile_skip _ h1 hg
        | true =>
          have hg0 : s.cfg.doGenerateOutputMovies = true := by
            rw [← pass_cfg s hf]
            exact hg
          rw [pass_movieFile _ h1 hg, hnd, pass_movieFile s hf hg0,
            finishedPred_after s hf, pass_inputSampling s hf, pass_inputInfo s hf,
            pass_cfg s hf, hps]
          simp [loadOutputSet_items]
      · cases hg : (checkNewOutput s).1.cfg.doSaveAveMic with
        | false => exact pass_micFile_skip _ h1 hg
        | true =>
          have hg0 : s.cfg.doSaveAveMic = true := by
            rw [← pass_cfg s hf]
            exact hg
          rw [pass_micFile _ h1 hg, hnd, pass_micFile s hf hg0,
            finishedPred_after s hf, pass_inputSampling s hf, pass_inputInfo s hf,
            pass_cfg s hf, hps]
          simp [loadOutputSet_items]
      · rw [pass_markedIds _ h1, hnd]
        rfl
      · rw [pass_transformIds _ h1, hnd]
        split <;> rfl
      · rw [pass_appendMovieIds _ h1, hnd]
        split <;> rfl
      · rw [pass_appendMicIds _ h1, hnd]
        split <;> rfl

/-- C5: when the pass's finished predicate is true (also with zero new
candidates) every enabled output collection is closed, the waiting join
step becomes runnable, a non-waiting join step is left untouched, and the
following pass emits no further events (so the transition happens at most
once and is never reverted); when the predicate is false, the join step is
unchanged and the enabled collections stay OPEN. -/
theorem claimC5 (s : ProtState) (h : s.finished = false) :
    ((checkNewOutput s).1.finished = true →
        (s.cfg.doGenerateOutputMovies = true →
            movieFileState (checkNewOutput s).1 = some StreamState.sClosed)
      ∧ (s.cfg.doSaveAveMic = true →
            micFileState (checkNewOutput s).1 = some StreamState.sClosed)
      ∧ (s.joinStep = some StepStatus.waiting →
            (checkNewOutput s).1.joinStep = some StepStatus.statusNew)
      ∧ (s.joinStep ≠ some StepStatus.waiting →
            (checkNewOutput s).1.joinStep = s.joinStep)
      ∧ (checkNewOutput (checkNewOutput s).1).2 = [])
    ∧ ((checkNewOutput s).1.finished = false →
        (checkNewOutput s).1.joinStep = s.joinStep
      ∧ (s.cfg.doGenerateOutputMovies = true →
            movieFileState (checkNewOutput s).1 = some StreamState.sOpen)
      ∧ (s.cfg.doSaveAveMic = true →
            micFileState (checkNewOutput s).1 = some StreamState.sOpen)) := by
  have hfin := pass_finished s h
  constructor
  · intro htrue
    have hps : finishedPred s = true := by
      rw [← hfin]
      exact htrue
    refine ⟨?_, ?_, ?_, ?_, ?_⟩
    · intro hg
      unfold movieFileState
      rw [pass_movieFile s h hg, hps]
      rfl
    · intro hg
      unfold micFileState
      rw [pass_micFile s h hg, hps]
      rfl
    · intro hw
      rw [pass_joinStep s h, hps, hw]
      rfl
    · intro hnw
      rw [pass_joinStep s h, hps]
      rcases hj : s.joinStep with _ | st
      · rfl
      · cases st with
        | waiting => exact absurd hj hnw
        | statusNew => rfl
        | other => rfl
    · rw [checkNewOutput_of_finished _ htrue]
  · intro hfalse
    have hps : finishedPred s = false := by
      rw [← hfin]
      exact hfalse
    refine ⟨?_, ?_, ?_⟩
    · rw [pass_joinStep s h, hps]
      rfl
    · intro hg
      unfold movieFileState
      rw [pass_movieFile s h hg, hps]
      rfl
    · intro hg
      unfold micFileState
      rw [pass_micFile s h hg, hps]
      rfl

/-- Witness for C5 at `exDone`: a finishing pass with zero new candidates
closes the micrograph collection and unblocks the waiting join step. -/
theorem claimC5_witness :
    micFileState (checkNewOutput exDone).1 = some StreamState.sClosed
      ∧ (checkNewOutput exDone).1.joinStep = some StepStatus.statusNew :=
  ⟨((claimC5 exDone rfl).1 (by decide)).2.1 rfl,
    ((claimC5 exDone rfl).1 (by decide)).2.2.1 rfl⟩

/-- C6: `_loadOutputSet` is resume-safe: with an existing file the saved
items are loaded and the set is append-enabled and OPEN rather than
recreated; with no file a fresh empty set is created with stream state
OPEN, the metadata of the input collection and the scaled sampling rate. -/
theorem claimC6 (saved : SavedSet Movie) (info : SetInfo) (sr bf : ℚ) :
    (loadOutputSet (some saved) info sr bf).items = saved.items
      ∧ (loadOutputSet (some saved) info sr bf).appendEnabled = true
      ∧ (loadOutputSet (some saved) info sr bf).streamState = StreamState.sOpen
      ∧ (loadOutputSet (none : Option (SavedSet Movie)) info sr bf).items = ([] : List Movie)
      ∧ (loadOutputSet (none : Option (SavedSet Movie)) info sr bf).streamState
          = StreamState.sOpen
      ∧ (loadOutputSet (none : Option (SavedSet Movie)) info sr bf).info = info
      ∧ (loadOutputSet (none : Option (SavedSet Movie)) info sr bf).samplingRate = sr * bf :=
  ⟨rfl, rfl, rfl, rfl, rfl, rfl, rfl⟩

/-- C7 counterexample: on `exNotReady` (empty done list, no ready movie)
the pass performs no append at all yet records both provenance relations;
and after the movie becomes ready (`exC7b`) the next pass records them a
second time, so the relation is neither tied to the first append nor
recorded exactly once. -/
theorem claimC7_counterexample :
    appendMovieIds (checkNewOutput exNotReady).2 = []
      ∧ appendMicIds (checkNewOutput exNotReady).2 = []
      ∧ relationEvents (checkNewOutput exNotReady).2
          = [RelKind.transformRel, RelKind.sourceRel]
      ∧ (checkNewOutput exC7b).1.relLog
          = [RelKind.transformRel, RelKind.sourceRel, RelKind.transformRel,
             RelKind.sourceRel] :=
  ⟨rfl, rfl, rfl, rfl⟩

/-- C7 (amended): the provenance relations are recorded exactly on the
passes whose persisted done list is empty at the start (one relation per
enabled output collection), whether or not the pass appends anything; they
stop being recorded only once some pass has persisted a done identifier. -/
theorem claimC7_amended (s : ProtState) (h : s.finished = false) :
    relationEvents (checkNewOutput s).2
        = (if s.cfg.doGenerateOutputMovies && s.doneLog.isEmpty then [RelKind.transformRel]
           else [])
          ++ (if s.cfg.doSaveAveMic && s.doneLog.isEmpty then [RelKind.sourceRel] else [])
      ∧ (checkNewOutput s).1.relLog = s.relLog ++ relationEvents (checkNewOutput s).2 := by
  refine ⟨pass_relationEvents s h, ?_⟩
  rw [pass_relLog s h, pass_relationEvents s h]

/-- Witness for C7 (amended) at `exReady`. -/
theorem claimC7_amended_witness :
    relationEvents (checkNewOutput exReady).2
        = (if exReady.cfg.doGenerateOutputMovies && exReady.doneLog.isEmpty
           then [RelKind.transformRel] else [])
          ++ (if exReady.cfg.doSaveAveMic && exReady.doneLog.isEmpty
              then [RelKind.sourceRel] else []) :=
  (claimC7_amended exReady rfl).1

/-- C8 counterexample: on `exCached` the cached `finished` attribute is set
while the recomputed predicate is false (the stream is still open); the
pass returns immediately, so its resulting finished value differs from the
pure predicate — a cached boolean does make the pass skip re-evaluation. -/
theorem claimC8_counterexample :
    (checkNewOutput exCached).2 = []
      ∧ ¬ ((checkNewOutput exCached).1.finished = finishedPred exCached) := by
  refine ⟨rfl, by decide⟩

/-- C8 (amended): the finished value is recomputed from the persisted done
list and the stream state on every pass whose cached flag is unset; once
the cached `finished` attribute is true the pass returns unchanged without
re-evaluating anything. -/
theorem claimC8_amended (s : ProtState) :
    (s.finished = false → (checkNewOutput s).1.finished = finishedPred s)
      ∧ (s.finished = true → checkNewOutput s = (s, [])) :=
  ⟨pass_finished s, checkNewOutput_of_finished s⟩

/-- Witness for C8 (amended) at `exReady` and `exCached`. -/
theorem claimC8_amended_witness :
    (checkNewOutput exReady).1.finished = finishedPred exReady
      ∧ checkNewOutput exCached = (exCached, []) :=
  ⟨(claimC8_amended exReady).1 rfl, (claimC8_amended exCached).2 rfl⟩

/-- C9: `_loadOutputSet` overwrites the copied metadata from the current
input collection and sets the sampling rate to the input sampling rate
times the binning factor, in the resume branch and in the creation branch
alike. -/
theorem claimC9 (α : Type) (file : Option (SavedSet α)) (info : SetInfo) (sr bf : ℚ) :
    (loadOutputSet file info sr bf).info = info
      ∧ (loadOutputSet file info sr bf).samplingRate = sr * bf :=
  ⟨loadOutputSet_info file info sr bf, loadOutputSet_samplingRate file info sr bf⟩

/-- C10: the micrographs appended by a pass are exactly one per newly done
movie, built by `createOutputMic`, which copies the movie's object
identifier and micrograph name; hence the output identifiers extend the
previous ones by exactly the candidates' identifiers. -/
theorem claimC10 (s : ProtState) (h : s.finished = false)
    (hg : s.cfg.doSaveAveMic = true) :
    (checkNewOutput s).1.micFile.map (fun sv => sv.items)
        = some ((loadOutputSet s.micFile s.inputInfo s.inputSampling s.cfg.binFactor).items
                  ++ (newDoneOf s).map createOutputMic)
      ∧ (∀ m : Movie, (createOutputMic m).objId = m.objId
          ∧ (createOutputMic m).micName = m.micName)
      ∧ micFileIds (checkNewOutput s).1
          = micFileIds s ++ (newDoneOf s).map (fun m => m.objId) := by
  refine ⟨?_, fun m => ⟨rfl, rfl⟩, pass_micFileIds s h hg⟩
  rw [pass_micFile s h hg]
  rfl

/-- Witness for C10 at `exReady`. -/
theorem claimC10_witness :
    micFileIds (checkNewOutput exReady).1
        = micFileIds exReady ++ (newDoneOf exReady).map (fun m => m.objId) :=
  (claimC10 exReady rfl rfl).2.2

end AlignMovies
